import Mathlib

/-!
Verification of the docx-plainify converter against its design specification.

The development shallowly embeds the pure logic of the repository:
Python strings are represented as Lean String (unicode code points, matching
Python str), and each Python helper is translated into an executable Lean
function operating on List Char.  The embedded functions are:

- DocxToYamlConverter (converter.py): convertParagraph, convertTable,
  processCellContent, convertListItem, isListParagraph, getHeadingLevel,
  mergeConsecutiveLists, cleanListText, processImages, convertDocument;
- ListProcessor (list_processor.py): isListParagraph, getListLevel,
  convertListGroup, cleanListText (textually identical to the converter one,
  embedded once as cleanListText);
- ImageProcessor (image_processor.py): describeImage, with the external LLM
  call modelled as an injected function returning Except (exception) or a
  result string.

Whitespace: Python str.strip / str.split / regex class backslash-s accept the
unicode whitespace code points; isPyWs lists them by code point.  Character
classes in the regexes of the source (digits, ascii letters, roman letters,
bullet glyphs) are ASCII or explicit glyph sets, so the embedding defines them
by code point as well; exotic unicode digits, which Python's regex digit class
would also accept, cannot interact with any of the patterns proved about here
and are not modelled.
-/

/-- Unicode whitespace by code point: the set accepted by Python str.strip,
str.split and the regex whitespace class on str. -/
def isPyWs (c : Char) : Bool :=
  c.toNat == 32 || c.toNat == 9 || c.toNat == 10 || c.toNat == 13 ||
  c.toNat == 11 || c.toNat == 12 || c.toNat == 28 || c.toNat == 29 ||
  c.toNat == 30 || c.toNat == 31 || c.toNat == 133 || c.toNat == 160 ||
  c.toNat == 5760 || (8192 ≤ c.toNat && c.toNat ≤ 8202) ||
  c.toNat == 8232 || c.toNat == 8233 || c.toNat == 8239 ||
  c.toNat == 8287 || c.toNat == 12288

/-- Ascii decimal digit, the regex class backslash-d as used by the source. -/
def isDigitC (c : Char) : Bool := 48 ≤ c.toNat && c.toNat ≤ 57

/-- Ascii letter, the regex class a-zA-Z of the source. -/
def isAsciiAlphaC (c : Char) : Bool :=
  (97 ≤ c.toNat && c.toNat ≤ 122) || (65 ≤ c.toNat && c.toNat ≤ 90)

/-- Python str.strip on a character list: drop whitespace at both ends. -/
def pyStripL (l : List Char) : List Char :=
  ((l.dropWhile isPyWs).reverse.dropWhile isPyWs).reverse

/-- Python str.strip on a String. -/
def pyStripS (s : String) : String := ⟨pyStripL s.data⟩

/-- Python str.startswith for plain (non-tuple) arguments, on char lists. -/
def startsWithL : List Char → List Char → Bool
  | [], _ => true
  | _ :: _, [] => false
  | p :: ps, c :: cs => p == c && startsWithL ps cs

/-- Python str.lower restricted to ascii.  The source lowercases text only to
feed it to the ascii roman-numeral pattern, where non-ascii characters fail to
match whether or not they were lowercased, so the ascii restriction is
faithful for every use in the source. -/
def pyLowerC (c : Char) : Char :=
  if c = 'A' then 'a' else if c = 'B' then 'b' else if c = 'C' then 'c'
  else if c = 'D' then 'd' else if c = 'E' then 'e' else if c = 'F' then 'f'
  else if c = 'G' then 'g' else if c = 'H' then 'h' else if c = 'I' then 'i'
  else if c = 'J' then 'j' else if c = 'K' then 'k' else if c = 'L' then 'l'
  else if c = 'M' then 'm' else if c = 'N' then 'n' else if c = 'O' then 'o'
  else if c = 'P' then 'p' else if c = 'Q' then 'q' else if c = 'R' then 'r'
  else if c = 'S' then 's' else if c = 'T' then 't' else if c = 'U' then 'u'
  else if c = 'V' then 'v' else if c = 'W' then 'w' else if c = 'X' then 'x'
  else if c = 'Y' then 'y' else if c = 'Z' then 'z' else c

/-- The bullet glyph and dash, asterisk, plus characters of the regex class
in clean-list-text, and the indicator list of the ListProcessor classifier
(same nine characters, same order). -/
def bulletChars : List Char := ['•', '◦', '▪', '▫', '‣', '⁃', '-', '*', '+']

/-- Lowercase roman numeral letters, the class ivxlcdm. -/
def romanLower : List Char := ['i', 'v', 'x', 'l', 'c', 'd', 'm']

/-- Roman numeral letters of both cases: what the class ivxlcdm matches under
the IGNORECASE flag. -/
def romanBoth : List Char :=
  ['i', 'v', 'x', 'l', 'c', 'd', 'm', 'I', 'V', 'X', 'L', 'C', 'D', 'M']

/-- First substitution of clean-list-text: the anchored regex replacing one
bullet-class character and trailing whitespace with the empty string. -/
def stripBulletL : List Char → List Char
  | [] => []
  | c :: rest =>
    if bulletChars.contains c then rest.dropWhile isPyWs else c :: rest

/-- Second substitution of clean-list-text: the anchored regex for one or more
digits, a dot or closing parenthesis, and trailing whitespace.  The regex
engine's match (digits maximal, since a shorter digit run is followed by a
digit, not by dot or parenthesis) coincides with takeWhile. -/
def stripNumL (cs : List Char) : List Char :=
  let ds := cs.takeWhile isDigitC
  if ds.isEmpty then cs
  else
    match cs.drop ds.length with
    | p :: rest => if p = '.' || p = ')' then rest.dropWhile isPyWs else cs
    | [] => cs

/-- Third substitution of clean-list-text: one ascii letter, a dot or closing
parenthesis, and trailing whitespace. -/
def stripLetterL (cs : List Char) : List Char :=
  match cs with
  | a :: p :: rest =>
    if isAsciiAlphaC a && (p = '.' || p = ')') then rest.dropWhile isPyWs
    else cs
  | _ => cs

/-- Fourth substitution of clean-list-text: one or more roman letters (either
case, IGNORECASE), a dot or closing parenthesis, and trailing whitespace. -/
def stripRomanL (cs : List Char) : List Char :=
  let ds := cs.takeWhile (fun c => romanBoth.contains c)
  if ds.isEmpty then cs
  else
    match cs.drop ds.length with
    | p :: rest => if p = '.' || p = ')' then rest.dropWhile isPyWs else cs
    | [] => cs

/-- Embeds clean-list-text of converter.py lines 382-406 and, textually
identical, list_processor.py lines 185-209: the four anchored substitutions
applied in order, then str.strip. -/
def cleanListTextL (cs : List Char) : List Char :=
  pyStripL (stripRomanL (stripLetterL (stripNumL (stripBulletL cs))))

/-- Embeds clean-list-text on Strings. -/
def cleanListText (s : String) : String := ⟨cleanListTextL s.data⟩

/-- Python str.split with no argument (whitespace runs as separators, no empty
tokens), worker with an accumulator holding the current word reversed. -/
def pySplitGo : List Char → List Char → List (List Char)
  | [], acc => if acc.isEmpty then [] else [acc.reverse]
  | c :: rest, acc =>
    if isPyWs c then
      if acc.isEmpty then pySplitGo rest [] else acc.reverse :: pySplitGo rest []
    else pySplitGo rest (c :: acc)

/-- Python str.split with no argument. -/
def pySplitWs (cs : List Char) : List (List Char) := pySplitGo cs []

/-- Python str.split with a one-character separator: keeps empty pieces and
always returns at least one piece. -/
def splitSepGo (sep : Char) : List Char → List Char → List (List Char)
  | [], acc => [acc.reverse]
  | c :: rest, acc =>
    if c == sep then acc.reverse :: splitSepGo sep rest []
    else splitSepGo sep rest (c :: acc)

/-- Python substring containment, the operator in, on char lists. -/
def containsSub (needle : List Char) : List Char → Bool
  | [] => startsWithL needle []
  | c :: rest => startsWithL needle (c :: rest) || containsSub needle rest

/-- Numeric value of an ascii digit character. -/
def digitVal (c : Char) : Nat := c.toNat - 48

/-- Digit-and-underscore tail of Python int parsing (PEP 515): underscores are
allowed only between digits.  The flag records that the previous character was
an underscore. -/
def digitsCore : List Char → Nat → Bool → Option Nat
  | [], acc, afterSep => if afterSep then none else some acc
  | c :: rest, acc, afterSep =>
    if isDigitC c then digitsCore rest (10 * acc + digitVal c) false
    else if c == '_' && !afterSep then digitsCore rest acc true
    else none

/-- Unsigned part of Python int parsing: at least one digit required. -/
def digitsStart : List Char → Option Nat
  | [] => none
  | c :: rest => if isDigitC c then digitsCore rest (digitVal c) false else none

/-- Python int applied to a string: strip whitespace, optional sign, digits
with underscore separators; any other input raises ValueError, modelled as
none. -/
def pyIntL (cs : List Char) : Option Int :=
  match pyStripL cs with
  | [] => none
  | c :: rest =>
    if c == '+' then (digitsStart rest).map (fun n => (n : Int))
    else if c == '-' then (digitsStart rest).map (fun n => -(n : Int))
    else (digitsStart (c :: rest)).map (fun n => (n : Int))

/-- A paragraph as the converter observes it: its text, its style name, and
its numbering properties (presence of numPr, and the explicit indent level
ilvl when given). -/
structure Para where
  text : String
  style : String
  numPr : Bool
  ilvl : Option Int

/-- A list item dictionary: a text entry and an optional children entry
(absent when the children key was never created). -/
inductive LItem where
  | mk (text : String) (children : Option (List LItem))

/-- Text entry of a list item. -/
def LItem.text : LItem → String
  | .mk t _ => t

/-- Children entry of a list item, none when the key is absent. -/
def LItem.children : LItem → Option (List LItem)
  | .mk _ c => c

/-- A converted block: the dictionaries the converter produces, discriminated
by their type entry.  A table row maps header strings to cell content, which
is either a plain string or a sequence of blocks. -/
inductive Element where
  | heading (text : String) (level : Int)
  | paragraph (text : String)
  | list (items : List LItem)
  | table (rows : List (List (String × (String ⊕ List Element))))
  | image (name : String) (description : String)

/-- Cell content: plain string or block sequence, the deliberately
type-varying contract of process-cell-content. -/
abbrev CellContent := String ⊕ List Element

/-- A table row dictionary with insertion order, as an association list. -/
abbrev Row := List (String × CellContent)

/-- Tests the type entry of a block for image. -/
def Element.isImage : Element → Bool
  | .image _ _ => true
  | _ => false

/-- A table cell: its text (python-docx joins the paragraph texts) and its
paragraphs. -/
structure DCell where
  text : String
  paragraphs : List Para

/-- A table: its rows of cells. -/
structure DTable where
  rows : List (List DCell)

/-- An image relation of the document part: target reference and blob. -/
structure ImgRel where
  targetRef : String
  blob : List Nat

/-- Raw image bytes. -/
abbrev ImageData := List Nat

/-- The injected LLM call: from image data to either a description string or
a raised exception carrying a message. -/
abbrev LLMFun := ImageData → Except String String

namespace ImageProcessor

/-- Placeholder returned when the Azure OpenAI client is not configured. -/
def notConfiguredMsg : String :=
  "Image description not available (Azure OpenAI not configured)"

/-- Placeholder built from a caught exception message. -/
def errorMsg (e : String) : String :=
  "Error generating image description: " ++ e

/-- Embeds describe-image of image_processor.py lines 60-110: without a
configured client a fixed placeholder is returned; otherwise the single LLM
invocation either yields a description, which is stripped, or raises, and the
exception is caught and rendered as an error string.  Always returns. -/
def describeImage (llm : Option LLMFun) (data : ImageData) : String :=
  match llm with
  | none => notConfiguredMsg
  | some f =>
    match f data with
    | .ok content => pyStripS content
    | .error e => errorMsg e

end ImageProcessor

namespace DocxToYamlConverter

/-- The tuple of text heads checked by is-list-paragraph of converter.py
lines 245-266. -/
def listStarters : List (List Char) :=
  [['•'], ['-'], ['*'], ['1', '.'], ['2', '.'], ['3', '.'], ['4', '.'], ['5', '.']]

/-- Embeds is-list-paragraph of converter.py lines 245-266: numbering
properties present, or the stripped text starts with one of the tuple
entries. -/
def isListParagraph (p : Para) : Bool :=
  p.numPr || listStarters.any (fun pat => startsWithL pat (pyStripL p.text.data))

/-- Embeds get-heading-level of converter.py lines 268-281: int of the last
whitespace-separated token; IndexError (no token) or ValueError (not an int)
fall back to 1. -/
def getHeadingLevel (styleName : String) : Int :=
  match (pySplitGo styleName.data []).getLast? with
  | none => 1
  | some tok =>
    match pyIntL tok with
    | none => 1
    | some n => n

/-- Embeds convert-list-item of converter.py lines 221-243: empty stripped
text yields nothing, otherwise a one-item flat list block whose text is the
cleaned text. -/
def convertListItem (p : Para) : Option Element :=
  let text := pyStripS p.text
  if text = "" then none
  else some (Element.list [LItem.mk (cleanListText text) none])

/-- Embeds convert-paragraph of converter.py lines 116-146: empty stripped
text yields nothing; a style name starting with Heading yields a heading
block; a list paragraph yields the flat list item; otherwise a paragraph
block. -/
def convertParagraph (p : Para) : Option Element :=
  let text := pyStripS p.text
  if text = "" then none
  else if startsWithL (("Heading").data) p.style.data then
    some (Element.heading text (getHeadingLevel p.style))
  else if isListParagraph p then convertListItem p
  else some (Element.paragraph text)

/-- Embeds process-cell-content of converter.py lines 187-219: with more than
one paragraph, nonempty paragraphs are converted (list paragraphs through
convert-list-item, keeping only non-none results; others to paragraph
blocks); an empty result falls back to the stripped cell text.  With at most
one paragraph the stripped cell text is returned. -/
def processCellContent (cell : DCell) : CellContent :=
  let text := pyStripS cell.text
  if cell.paragraphs.length > 1 then
    let content := cell.paragraphs.filterMap (fun para =>
      if pyStripS para.text = "" then none
      else if isListParagraph para then convertListItem para
      else some (Element.paragraph (pyStripS para.text)))
    if content.isEmpty then Sum.inl text else Sum.inr content
  else Sum.inl text

/-- Python dict assignment on an association list: overwrite in place when
the key exists, append otherwise. -/
def dictInsert (k : String) (v : CellContent) : Row → Row
  | [] => [(k, v)]
  | (k2, v2) :: rest =>
    if k2 = k then (k, v) :: rest else (k2, v2) :: dictInsert k v rest

/-- Python truthiness of cell content: nonempty string or nonempty block
sequence. -/
def truthyCell : CellContent → Bool
  | .inl s => !(s == "")
  | .inr l => !l.isEmpty

/-- The row dictionary of convert-table: cells paired with their index, kept
only while the index is below the header count. -/
def buildRow (headers : List String) (cells : List DCell) : Row :=
  (cells.enum).foldl
    (fun acc ic =>
      if ic.1 < headers.length then
        dictInsert (headers.getD ic.1 ("")) (processCellContent ic.2) acc
      else acc)
    []

/-- Embeds convert-table of converter.py lines 148-185: no rows yields
nothing; headers are the stripped first-row cell texts; all-empty headers
yield nothing; each later row becomes a dictionary keyed positionally by the
headers, kept only when some value is truthy. -/
def convertTable (t : DTable) : Option Element :=
  match t.rows with
  | [] => none
  | firstRow :: dataRows =>
    let headers := firstRow.map (fun c => pyStripS c.text)
    if headers.any (fun h => !(h == "")) then
      some (Element.table (dataRows.filterMap (fun row =>
        let rowData := buildRow headers row
        if (rowData.map (fun kv => kv.2)).any truthyCell then some rowData
        else none)))
    else none

/-- Worker of merge-consecutive-lists: the first argument is the current
accumulated list block content, absent when no list run is open. -/
def mergeAux : Option (List LItem) → List Element → List Element
  | none, [] => []
  | some acc, [] => [Element.list acc]
  | cur, e :: rest =>
    match e with
    | Element.list its =>
      match cur with
      | none => mergeAux (some its) rest
      | some acc => mergeAux (some (acc ++ its)) rest
    | _ =>
      match cur with
      | none => e :: mergeAux none rest
      | some acc => Element.list acc :: e :: mergeAux none rest

/-- Embeds merge-consecutive-lists of converter.py lines 341-380. -/
def mergeConsecutiveLists (elements : List Element) : List Element :=
  mergeAux none elements

/-- The test selecting image relations: the substring image occurs in the
target reference. -/
def isImageRel (r : ImgRel) : Bool := containsSub (("image").data) r.targetRef.data

/-- Name of an image element: the last slash-separated piece of the target
reference. -/
def relName (targetRef : String) : String :=
  ⟨(splitSepGo '/' targetRef.data []).getLast?.getD []⟩

/-- Embeds process-images of converter.py lines 308-339: every relation whose
target reference contains the substring image yields one image element whose
description comes from the single describe-image call. -/
def processImages (llm : Option LLMFun) (rels : List ImgRel) : List Element :=
  rels.filterMap (fun rel =>
    if isImageRel rel then
      some (Element.image (relName rel.targetRef)
        (ImageProcessor.describeImage llm rel.blob))
    else none)

/-- A body element of the document: paragraph, table, or any other element,
the latter contributing only its extracted text. -/
inductive BodyElement where
  | par (p : Para)
  | tbl (t : DTable)
  | other (text : String)

/-- One iteration of the body loop of convert-document. -/
def convertBodyElement : BodyElement → Option Element
  | .par p => convertParagraph p
  | .tbl t => convertTable t
  | .other text =>
    if pyStripS text = "" then none else some (Element.paragraph (pyStripS text))

/-- Embeds convert-document of converter.py lines 67-114: convert body
elements in order keeping non-none results, merge consecutive list blocks,
then, when image description is enabled, append the image elements at the
end. -/
def convertDocument (body : List BodyElement) (rels : List ImgRel)
    (describeImages : Bool) (llm : Option LLMFun) : List Element :=
  let elements := body.filterMap convertBodyElement
  let merged := mergeConsecutiveLists elements
  if describeImages then merged ++ processImages llm rels else merged

end DocxToYamlConverter

namespace ListProcessor

/-- An anchored character-class-plus run followed by one given end character:
the shape of the anchored regexes of the ListProcessor classifier.  The
maximal run coincides with the regex match, since a shorter run is followed
by another class character, not by the end character. -/
def matchClassThen (p : Char → Bool) (endc : Char) (cs : List Char) : Bool :=
  let ds := cs.takeWhile p
  !ds.isEmpty && ((cs.drop ds.length).head? == some endc)

/-- Text-head tests of is-list-paragraph of list_processor.py lines 116-157:
the nine indicator characters via startswith, then the anchored digit, ascii
letter and roman patterns, the roman ones applied to the lowercased text. -/
def isListText (cs : List Char) : Bool :=
  bulletChars.any (fun ind => startsWithL [ind] cs) ||
  matchClassThen isDigitC '.' cs || matchClassThen isDigitC ')' cs ||
  (match cs with
   | a :: p :: _ => isAsciiAlphaC a && (p == '.' || p == ')')
   | _ => false) ||
  matchClassThen (fun c => romanLower.contains c) '.' (cs.map pyLowerC) ||
  matchClassThen (fun c => romanLower.contains c) ')' (cs.map pyLowerC)

/-- Embeds is-list-paragraph of list_processor.py lines 116-157: numbering
properties present, or the stripped text matches one of the marker
patterns. -/
def isListParagraph (p : Para) : Bool :=
  p.numPr || isListText (pyStripL p.text.data)

/-- Embeds get-list-level of list_processor.py lines 159-183: the explicit
ilvl value when numbering properties carry one, else the leading-whitespace
count of the raw text divided by 4, floored, clamped at 0. -/
def getListLevel (p : Para) : Int :=
  match p.numPr, p.ilvl with
  | true, some v => v
  | _, _ =>
    let lead : Nat := p.text.data.length - (p.text.data.dropWhile isPyWs).length
    max 0 ((lead : Int) / 4)

/-- State of the convert-list-group loop.  In the source the insertion target
items aliases a children list of an item reachable from a stacked outer
list; here each stack entry keeps the outer list without its last item
together with that last item's text, and reattaches the finished children
list on pop. -/
structure GroupState where
  items : List LItem
  curLevel : Int
  stack : List (List LItem × String)

/-- The stack-popping loop for a decreased level: pop while the stack is
nonempty and the level is below the current one, decrementing the current
level once per pop and reattaching the children list. -/
def popLevels (level : Int) :
    List (List LItem × String) → Int → List LItem →
    List (List LItem × String) × Int × List LItem
  | [], cur, items => ([], cur, items)
  | fr :: rest, cur, items =>
    if level < cur then
      popLevels level rest (cur - 1) (fr.1 ++ [LItem.mk fr.2 (some items)])
    else (fr :: rest, cur, items)

/-- The push for an increased level: with nonempty items, redirect insertion
into the children of the last item (created empty when absent); the current
level becomes the new level in every case. -/
def pushLevel (st : GroupState) (level : Int) : GroupState :=
  match st.items.getLast? with
  | none => { st with curLevel := level }
  | some last =>
    { items := (last.children).getD []
      curLevel := level
      stack := (st.items.dropLast, last.text) :: st.stack }

/-- One iteration of the convert-list-group loop of list_processor.py lines
78-105: compute the level, strip and clean the text, skip the item entirely
when the cleaned text is empty, otherwise adjust the level (push or pop) and
append the item at the insertion target. -/
def groupStep (st : GroupState) (p : Para) : GroupState :=
  let level := getListLevel p
  let text := cleanListText (pyStripS p.text)
  if text = "" then st
  else
    let st2 :=
      if level > st.curLevel then pushLevel st level
      else if level < st.curLevel then
        let r := popLevels level st.stack st.curLevel st.items
        { items := r.2.2, curLevel := r.2.1, stack := r.1 }
      else st
    { st2 with items := st2.items ++ [LItem.mk text none] }

/-- The final unwinding of list_processor.py lines 107-109: pop every
residual level, reattaching children lists, without emitting extra nodes. -/
def unwindAll : List (List LItem × String) → List LItem → List LItem
  | [], items => items
  | fr :: rest, items => unwindAll rest (fr.1 ++ [LItem.mk fr.2 (some items)])

/-- Embeds convert-list-group of list_processor.py lines 64-114: fold the
loop over the paragraphs from the empty state at level 0, unwind the stack,
and wrap the result as one list block. -/
def convertListGroup (paragraphs : List Para) : Element :=
  let st := paragraphs.foldl groupStep ⟨[], 0, []⟩
  Element.list (unwindAll st.stack st.items)

end ListProcessor

/-! Helper lemmas about the string primitives. -/

/-- Stripping after dropping leading whitespace equals plain stripping. -/
theorem pyStripL_dropWhile (l : List Char) :
    pyStripL (l.dropWhile isPyWs) = pyStripL l := by
  unfold pyStripL
  rw [List.dropWhile_idempotent]

/-! Claim C6. -/

/-- C6: merging the sequence list A, list B, paragraph X, list C yields
list (A ++ B), paragraph X, list C: adjacent list blocks coalesce in order,
a non-list block flushes the accumulator, and a trailing accumulated list is
emitted at the end. -/
theorem c6_merge_consecutive (A B C : List LItem) (X : String) :
    DocxToYamlConverter.mergeConsecutiveLists
        [Element.list A, Element.list B, Element.paragraph X, Element.list C]
      = [Element.list (A ++ B), Element.paragraph X, Element.list C] := rfl

/-! Claim C3. -/

/-- C3 counterexample: on the list text dash 1. hello, the stripping pass
removes both the dash marker and the decimal marker, not only the first
matching marker; removing only the leading dash would give 1. hello. -/
theorem c3_single_strip_counterexample :
    cleanListText ("- 1. hello") = ("hello")
      ∧ ¬ cleanListText ("- 1. hello") = ("1. hello") := by
  exact ⟨rfl, by decide⟩

/-- C3 amended: one pass strips at most one marker per category, applying
the four categories in the fixed order bullet, decimal, letter, roman.  A
repeated marker of the same category survives (the second dash below), while
one stacked marker of each category is removed in a single pass. -/
theorem c3_per_category_strip (s : String) :
    cleanListText (("- - ") ++ s) = pyStripS (("- ") ++ s)
      ∧ cleanListText (("- 1. a) iv) ") ++ s) = pyStripS s := by
  constructor
  · rfl
  · show (⟨pyStripL (s.data.dropWhile isPyWs)⟩ : String) = ⟨pyStripL s.data⟩
    exact congrArg String.mk (pyStripL_dropWhile s.data)

/-! Claim C5, counterexample part. -/

/-- C5 counterexample: a document whose only paragraph is a single bullet
glyph converts, through the flat converter path, to a list block containing
an item with empty text: the item is emitted, not dropped. -/
theorem c5_empty_item_counterexample :
    DocxToYamlConverter.convertDocument
        [DocxToYamlConverter.BodyElement.par ⟨"•", "Normal", false, none⟩]
        [] false none
      = [Element.list [LItem.mk ("") none]] := rfl

/-- A list whose head fails the predicate is unchanged by dropWhile. -/
theorem dropWhile_eq_self_of_head (p : Char → Bool) (l : List Char)
    (h : ∀ a, l.head? = some a → p a = false) : l.dropWhile p = l := by
  cases l with
  | nil => rfl
  | cons c t => simp [List.dropWhile_cons, h c rfl]

/-- The head surviving right-stripping was the head already. -/
theorem head?_rdropWhile (p : Char → Bool) (X : List Char) (a : Char)
    (h : (X.rdropWhile p).head? = some a) : X.head? = some a := by
  induction X using List.reverseRecOn with
  | nil => simp [List.rdropWhile_nil] at h
  | append_singleton l x ih =>
    rw [List.rdropWhile_concat] at h
    by_cases hp : p x
    · rw [if_pos hp] at h
      have hl := ih h
      cases l with
      | nil => simp at hl
      | cons b t => simpa using hl
    · rw [if_neg hp] at h
      exact h

/-- A stripped list has no leading whitespace left. -/
theorem dropWhile_pyStripL (l : List Char) :
    (pyStripL l).dropWhile isPyWs = pyStripL l := by
  apply dropWhile_eq_self_of_head
  intro a ha
  have h1 : ((l.dropWhile isPyWs).rdropWhile isPyWs).head? = some a := ha
  have h2 := head?_rdropWhile isPyWs (l.dropWhile isPyWs) a h1
  have h3 := List.head?_dropWhile_not isPyWs l
  rw [h2] at h3
  exact h3

/-- Python strip is idempotent. -/
theorem pyStripL_idem (l : List Char) : pyStripL (pyStripL l) = pyStripL l := by
  show List.rdropWhile isPyWs ((pyStripL l).dropWhile isPyWs) = pyStripL l
  rw [dropWhile_pyStripL]
  show List.rdropWhile isPyWs (List.rdropWhile isPyWs (l.dropWhile isPyWs))
    = pyStripL l
  rw [List.rdropWhile_idempotent]
  rfl

/-! Claim C4. -/

/-- C4 counterexample: on the text 1. - x the strip yields - x, which still
begins with a recognized dash marker, and a second strip removes it: the
stripping function is not idempotent. -/
theorem c4_idempotence_counterexample :
    cleanListText ("1. - x") = ("- x")
      ∧ cleanListText (cleanListText ("1. - x")) = ("x")
      ∧ ¬ cleanListText (cleanListText ("1. - x")) = cleanListText ("1. - x") := by
  exact ⟨rfl, rfl, by decide⟩

/-- C4 amended: a second strip returns its input unchanged whenever the
once-stripped text does not itself begin with a recognized marker, expressed
as each of the four marker substitutions leaving the stripped text
unchanged (each substitution shortens its input whenever its pattern
matches, so invariance is exactly absence of the marker). -/
theorem c4_conditional_idempotence (t : String)
    (h1 : stripBulletL (cleanListText t).data = (cleanListText t).data)
    (h2 : stripNumL (cleanListText t).data = (cleanListText t).data)
    (h3 : stripLetterL (cleanListText t).data = (cleanListText t).data)
    (h4 : stripRomanL (cleanListText t).data = (cleanListText t).data) :
    cleanListText (cleanListText t) = cleanListText t := by
  show (⟨cleanListTextL (cleanListText t).data⟩ : String) = cleanListText t
  unfold cleanListTextL
  rw [h1, h2, h3, h4]
  show (⟨pyStripL (pyStripL (stripRomanL (stripLetterL (stripNumL
    (stripBulletL t.data)))))⟩ : String) = cleanListText t
  rw [pyStripL_idem]
  rfl

/-- C4 witness: the theorem applied to the text dash hello, whose stripped
form hello carries no marker. -/
theorem c4_witness :
    cleanListText (cleanListText ("- hello")) = cleanListText ("- hello") :=
  c4_conditional_idempotence ("- hello") (by decide) (by decide) (by decide)
    (by decide)

/-! Claim C5, amended part. -/

/-- An item with empty cleaned text leaves the reconstruction state
untouched. -/
theorem groupStep_skip (st : ListProcessor.GroupState) (p : Para)
    (h : cleanListText (pyStripS p.text) = "") :
    ListProcessor.groupStep st p = st := by
  simp [ListProcessor.groupStep, h]

/-- C5 amended: in the ListProcessor reconstruction an item whose cleaned
text is empty is dropped silently: the conversion of any group containing it
equals the conversion of the group without it, so it is never inserted and
does not affect depth tracking for the following items.  (The flat converter
path, by contrast, emits an empty-text item: see the counterexample.) -/
theorem c5_listproc_drop (pre post : List Para) (p : Para)
    (h : cleanListText (pyStripS p.text) = "") :
    ListProcessor.convertListGroup (pre ++ p :: post)
      = ListProcessor.convertListGroup (pre ++ post) := by
  unfold ListProcessor.convertListGroup
  rw [List.foldl_append, List.foldl_cons, groupStep_skip _ p h,
    ← List.foldl_append]

/-- C5 witness: a bullet-only paragraph between two real items is dropped. -/
theorem c5_witness :
    ListProcessor.convertListGroup
        [⟨"- a", "Normal", false, none⟩, ⟨"•", "Normal", false, none⟩,
          ⟨"- b", "Normal", false, none⟩]
      = ListProcessor.convertListGroup
          [⟨"- a", "Normal", false, none⟩, ⟨"- b", "Normal", false, none⟩] :=
  c5_listproc_drop [⟨"- a", "Normal", false, none⟩]
    [⟨"- b", "Normal", false, none⟩] ⟨"•", "Normal", false, none⟩ (by decide)

/-! Claim C2. -/

/-- C2: a run of four list items with classifier-reported depths 0, 1, 1, 0
and non-empty cleaned texts reconstructs to exactly one list block whose
top-level items are the first and last item in input order, the first item
carrying the two depth-1 items as its children in input order and the last
item carrying no children entry. -/
theorem c2_depth_0110_reconstruction (p0 p1 p2 p3 : Para) (t0 t1 t2 t3 : String)
    (l0 : ListProcessor.getListLevel p0 = 0) (l1 : ListProcessor.getListLevel p1 = 1)
    (l2 : ListProcessor.getListLevel p2 = 1) (l3 : ListProcessor.getListLevel p3 = 0)
    (e0 : cleanListText (pyStripS p0.text) = t0) (n0 : ¬ t0 = "")
    (e1 : cleanListText (pyStripS p1.text) = t1) (n1 : ¬ t1 = "")
    (e2 : cleanListText (pyStripS p2.text) = t2) (n2 : ¬ t2 = "")
    (e3 : cleanListText (pyStripS p3.text) = t3) (n3 : ¬ t3 = "") :
    ListProcessor.convertListGroup [p0, p1, p2, p3]
      = Element.list [LItem.mk t0 (some [LItem.mk t1 none, LItem.mk t2 none]),
          LItem.mk t3 none] := by
  simp only [ListProcessor.convertListGroup, List.foldl_cons, List.foldl_nil]
  simp [ListProcessor.groupStep, ListProcessor.pushLevel, ListProcessor.popLevels,
    ListProcessor.unwindAll, l0, l1, l2, l3, e0, e1, e2, e3, n0, n1, n2, n3,
    LItem.children, LItem.text]

/-- C2 witness: four items with explicit numbering levels 0, 1, 1, 0. -/
theorem c2_witness :
    ListProcessor.convertListGroup
        [⟨"alpha", "List", true, some 0⟩, ⟨"beta", "List", true, some 1⟩,
          ⟨"gamma", "List", true, some 1⟩, ⟨"delta", "List", true, some 0⟩]
      = Element.list
          [LItem.mk ("alpha")
            (some [LItem.mk ("beta") none, LItem.mk ("gamma") none]),
            LItem.mk ("delta") none] :=
  c2_depth_0110_reconstruction _ _ _ _ _ _ _ _ rfl rfl rfl rfl rfl (by decide)
    rfl (by decide) rfl (by decide) rfl (by decide)

/-! Claim C7. -/

/-- C7: the table with header row Name, Role and the single data row Zhang,
PM converts to a table block with one row mapping Name to Zhang and Role to
PM; and every table whose first-row cell texts are all empty after trimming
(including the no-rows table) yields no block. -/
theorem c7_table_conversion :
    (DocxToYamlConverter.convertTable
        ⟨[[⟨"Name", [⟨"Name", "Normal", false, none⟩]⟩,
            ⟨"Role", [⟨"Role", "Normal", false, none⟩]⟩],
          [⟨"Zhang", [⟨"Zhang", "Normal", false, none⟩]⟩,
            ⟨"PM", [⟨"PM", "Normal", false, none⟩]⟩]]⟩
      = some (Element.table
          [[(("Name" : String), Sum.inl ("Zhang")),
            (("Role" : String), Sum.inl ("PM"))]]))
    ∧ ∀ t : DTable, (∀ c ∈ t.rows.headD [], pyStripS c.text = "") →
        DocxToYamlConverter.convertTable t = none := by
  constructor
  · rfl
  · intro t h
    rcases t with ⟨rows⟩
    cases rows with
    | nil => rfl
    | cons fr rest =>
      show (if (fr.map (fun c => pyStripS c.text)).any (fun h => !(h == ""))
        then _ else none) = none
      rw [if_neg]
      intro hc
      rcases List.any_eq_true.mp hc with ⟨x, hm, hx⟩
      rcases List.mem_map.mp hm with ⟨c, hcm, rfl⟩
      rw [h c (by simpa using hcm)] at hx
      simp at hx

/-- C7 witness: a one-row table whose only header cell trims to empty. -/
theorem c7_witness :
    DocxToYamlConverter.convertTable ⟨[[⟨" ", []⟩]]⟩ = none :=
  c7_table_conversion.2 ⟨[[⟨" ", []⟩]]⟩ (by decide)

/-! Claim C9. -/

/-- C9: image description failures never abort the conversion and are never
retried.  Whatever the injected LLM does, every image relation yields exactly
one image element (the loop continues past failures); without a configured
client the fixed placeholder is returned; and when the single invocation
raises, the caught exception is rendered as an error string instead of
propagating. -/
theorem c9_image_failures :
    (∀ (llm : Option LLMFun) (rels : List ImgRel),
        (DocxToYamlConverter.processImages llm rels).length
          = (rels.filter DocxToYamlConverter.isImageRel).length)
    ∧ (∀ data : ImageData,
        ImageProcessor.describeImage none data = ImageProcessor.notConfiguredMsg)
    ∧ (∀ (f : LLMFun) (data : ImageData) (e : String), f data = Except.error e →
        ImageProcessor.describeImage (some f) data = ImageProcessor.errorMsg e) := by
  refine ⟨fun llm rels => ?_, fun _ => rfl, fun f data e h => ?_⟩
  · induction rels with
    | nil => rfl
    | cons r rest ih =>
      by_cases hr : DocxToYamlConverter.isImageRel r
      · simp [DocxToYamlConverter.processImages, List.filterMap_cons,
          List.filter_cons, hr] at ih ⊢
        exact ih
      · simp [DocxToYamlConverter.processImages, List.filterMap_cons,
          List.filter_cons, hr] at ih ⊢
        exact ih
  · simp [ImageProcessor.describeImage, h]

/-- C9 witness: an LLM that raises on every call still yields the error
string for the image. -/
theorem c9_witness :
    ImageProcessor.describeImage (some (fun _ => Except.error ("boom"))) []
      = ImageProcessor.errorMsg ("boom") :=
  c9_image_failures.2.2 (fun _ => Except.error ("boom")) [] ("boom") rfl

/-! Claim C10. -/

/-- A converted paragraph block is never an image block. -/
theorem convertParagraph_no_image (p : Para) (e : Element)
    (he : DocxToYamlConverter.convertParagraph p = some e) : e.isImage = false := by
  simp only [DocxToYamlConverter.convertParagraph,
    DocxToYamlConverter.convertListItem] at he
  split at he
  · exact absurd he (by simp)
  · split at he
    · injection he with h; subst h; rfl
    · split at he
      · injection he with h; subst h; rfl
      · injection he with h; subst h; rfl

/-- No body element converts to an image block. -/
theorem convertBodyElement_no_image (be : DocxToYamlConverter.BodyElement)
    (e : Element) (he : DocxToYamlConverter.convertBodyElement be = some e) :
    e.isImage = false := by
  cases be with
  | par p => exact convertParagraph_no_image p e he
  | tbl t =>
    rcases t with ⟨rows⟩
    cases rows with
    | nil =>
      simp [DocxToYamlConverter.convertBodyElement,
        DocxToYamlConverter.convertTable] at he
    | cons fr rest =>
      simp only [DocxToYamlConverter.convertBodyElement,
        DocxToYamlConverter.convertTable] at he
      split at he
      · injection he with h; subst h; rfl
      · exact absurd he (by simp)
  | other txt =>
    simp only [DocxToYamlConverter.convertBodyElement] at he
    split at he
    · exact absurd he (by simp)
    · injection he with h; subst h; rfl

/-- The merge pass introduces no image block beyond those of its input. -/
theorem mergeAux_no_image (l : List Element) (cur : Option (List LItem))
    (hl : ∀ e ∈ l, e.isImage = false) :
    ∀ e ∈ DocxToYamlConverter.mergeAux cur l, e.isImage = false := by
  induction l generalizing cur with
  | nil =>
    intro e he
    cases cur with
    | none => simp [DocxToYamlConverter.mergeAux] at he
    | some acc =>
      simp [DocxToYamlConverter.mergeAux] at he
      subst he; rfl
  | cons a rest ih =>
    intro e he
    have ha : a.isImage = false := hl a (List.mem_cons_self a rest)
    have hrest : ∀ x ∈ rest, x.isImage = false :=
      fun x hx => hl x (List.mem_cons_of_mem a hx)
    cases a with
    | list its =>
      cases cur with
      | none => exact ih (some its) hrest e he
      | some acc => exact ih (some (acc ++ its)) hrest e he
    | heading t lv =>
      cases cur with
      | none =>
        simp only [DocxToYamlConverter.mergeAux] at he
        rcases List.mem_cons.mp he with h1 | h2
        · subst h1; rfl
        · exact ih none hrest e h2
      | some acc =>
        simp only [DocxToYamlConverter.mergeAux] at he
        rcases List.mem_cons.mp he with h1 | h2
        · subst h1; rfl
        · rcases List.mem_cons.mp h2 with h3 | h4
          · subst h3; rfl
          · exact ih none hrest e h4
    | paragraph t =>
      cases cur with
      | none =>
        simp only [DocxToYamlConverter.mergeAux] at he
        rcases List.mem_cons.mp he with h1 | h2
        · subst h1; rfl
        · exact ih none hrest e h2
      | some acc =>
        simp only [DocxToYamlConverter.mergeAux] at he
        rcases List.mem_cons.mp he with h1 | h2
        · subst h1; rfl
        · rcases List.mem_cons.mp h2 with h3 | h4
          · subst h3; rfl
          · exact ih none hrest e h4
    | table rows =>
      cases cur with
      | none =>
        simp only [DocxToYamlConverter.mergeAux] at he
        rcases List.mem_cons.mp he with h1 | h2
        · subst h1; rfl
        · exact ih none hrest e h2
      | some acc =>
        simp only [DocxToYamlConverter.mergeAux] at he
        rcases List.mem_cons.mp he with h1 | h2
        · subst h1; rfl
        · rcases List.mem_cons.mp h2 with h3 | h4
          · subst h3; rfl
          · exact ih none hrest e h4
    | image nm d =>
      cases cur with
      | none =>
        simp only [DocxToYamlConverter.mergeAux] at he
        rcases List.mem_cons.mp he with h1 | h2
        · subst h1; exact ha
        · exact ih none hrest e h2
      | some acc =>
        simp only [DocxToYamlConverter.mergeAux] at he
        rcases List.mem_cons.mp he with h1 | h2
        · subst h1; rfl
        · rcases List.mem_cons.mp h2 with h3 | h4
          · subst h3; exact ha
          · exact ih none hrest e h4

/-- C10: with image description disabled the converted document contains no
image block; with it enabled the output is exactly the disabled output
followed by the image elements, one per image relation in relation order.
Hence every image block sits after all heading, paragraph, list and table
blocks regardless of where the images occur in the document. -/
theorem c10_image_placement (body : List DocxToYamlConverter.BodyElement)
    (rels : List ImgRel) (llm : Option LLMFun) :
    ((DocxToYamlConverter.convertDocument body rels false llm).all
        (fun e => !e.isImage) = true)
    ∧ DocxToYamlConverter.convertDocument body rels true llm
        = DocxToYamlConverter.convertDocument body rels false llm
          ++ DocxToYamlConverter.processImages llm rels
    ∧ DocxToYamlConverter.processImages llm rels
        = (rels.filter DocxToYamlConverter.isImageRel).map
            (fun r => Element.image (DocxToYamlConverter.relName r.targetRef)
              (ImageProcessor.describeImage llm r.blob)) := by
  refine ⟨?_, rfl, ?_⟩
  · rw [List.all_eq_true]
    intro e he
    have hbase : ∀ x ∈ body.filterMap DocxToYamlConverter.convertBodyElement,
        x.isImage = false := by
      intro x hx
      rcases List.mem_filterMap.mp hx with ⟨be, _, hconv⟩
      exact convertBodyElement_no_image be x hconv
    have h := mergeAux_no_image _ none hbase e he
    simp [h]
  · induction rels with
    | nil => rfl
    | cons r rest ih =>
      by_cases hr : DocxToYamlConverter.isImageRel r <;>
        simp [DocxToYamlConverter.processImages, List.filterMap_cons,
          List.filter_cons, hr] at ih ⊢ <;> exact ih

/-! Claim C8. -/

/-- An ascii letter is not whitespace. -/
theorem alpha_not_ws (c : Char) (h : isAsciiAlphaC c = true) : isPyWs c = false := by
  simp [isAsciiAlphaC] at h
  simp [isPyWs]
  omega

/-- An ascii digit is not whitespace. -/
theorem digit_not_ws (c : Char) (h : isDigitC c = true) : isPyWs c = false := by
  simp [isDigitC] at h
  simp [isPyWs]
  omega

/-- An ascii letter is not a digit. -/
theorem alpha_not_digit (c : Char) (h : isAsciiAlphaC c = true) : isDigitC c = false := by
  simp [isAsciiAlphaC] at h
  simp [isDigitC]
  omega

/-- dropWhile keeps a list none of whose elements satisfy the predicate. -/
theorem dropWhile_all_false (p : Char → Bool) (l : List Char)
    (h : ∀ c ∈ l, p c = false) : l.dropWhile p = l := by
  cases l with
  | nil => rfl
  | cons c t => simp [List.dropWhile_cons, h c (List.mem_cons_self c t)]

/-- Stripping a list without whitespace is the identity. -/
theorem pyStripL_no_ws (l : List Char) (h : ∀ c ∈ l, isPyWs c = false) :
    pyStripL l = l := by
  unfold pyStripL
  rw [dropWhile_all_false _ _ h]
  rw [dropWhile_all_false _ _ (fun c hc => h c (List.mem_reverse.mp hc))]
  exact List.reverse_reverse l

/-- Splitting a whitespace-free word yields that single word. -/
theorem pySplitGo_no_ws (w : List Char) (acc : List Char)
    (h : ∀ c ∈ w, isPyWs c = false) (hne : ¬ acc.reverse ++ w = []) :
    pySplitGo w acc = [acc.reverse ++ w] := by
  induction w generalizing acc with
  | nil =>
    have hacc : ¬ acc = [] := by
      intro hn
      exact hne (by simp [hn])
    simp only [pySplitGo]
    rw [if_neg (by simp [List.isEmpty_iff, hacc])]
    simp
  | cons c r ih =>
    simp only [pySplitGo, h c (List.mem_cons_self c r)]
    simp only [Bool.false_eq_true, if_false]
    rw [ih (c :: acc) (fun x hx => h x (List.mem_cons_of_mem c hx)) (by simp)]
    simp

/-- Decimal value of a digit string. -/
def natOfDigits (l : List Char) : Nat :=
  l.foldl (fun a c => 10 * a + digitVal c) 0

/-- The int-parsing loop on pure digits accumulates the decimal value. -/
theorem digitsCore_digits (l : List Char) (acc : Nat)
    (h : ∀ c ∈ l, isDigitC c = true) :
    digitsCore l acc false = some (l.foldl (fun a c => 10 * a + digitVal c) acc) := by
  induction l generalizing acc with
  | nil => rfl
  | cons c t ih =>
    simp only [digitsCore, h c (List.mem_cons_self c t), if_true, List.foldl_cons]
    exact ih _ (fun x hx => h x (List.mem_cons_of_mem c hx))

/-- Python int succeeds on a nonempty digit string with its decimal value. -/
theorem pyIntL_digits (l : List Char) (hne : ¬ l = [])
    (h : ∀ c ∈ l, isDigitC c = true) :
    pyIntL l = some ((natOfDigits l : Int)) := by
  unfold pyIntL
  rw [pyStripL_no_ws l (fun c hc => digit_not_ws c (h c hc))]
  cases l with
  | nil => exact absurd rfl hne
  | cons c t =>
    have hc := h c (List.mem_cons_self c t)
    have hplus : (c == '+') = false := by
      by_cases hcp : c = '+'
      · subst hcp; exact absurd hc (by decide)
      · simp [hcp]
    have hminus : (c == '-') = false := by
      by_cases hcm : c = '-'
      · subst hcm; exact absurd hc (by decide)
      · simp [hcm]
    simp only [hplus, hminus, Bool.false_eq_true, if_false]
    simp only [digitsStart, hc, if_true]
    rw [digitsCore_digits t (digitVal c) (fun x hx => h x (List.mem_cons_of_mem c hx))]
    simp [natOfDigits]

/-- Python int raises on a nonempty all-letter string. -/
theorem pyIntL_alpha (l : List Char) (h : ∀ c ∈ l, isAsciiAlphaC c = true) :
    pyIntL l = none := by
  unfold pyIntL
  rw [pyStripL_no_ws l (fun c hc => alpha_not_ws c (h c hc))]
  cases l with
  | nil => rfl
  | cons c t =>
    have hc := h c (List.mem_cons_self c t)
    have hplus : (c == '+') = false := by
      by_cases hcp : c = '+'
      · subst hcp; exact absurd hc (by decide)
      · simp [hcp]
    have hminus : (c == '-') = false := by
      by_cases hcm : c = '-'
      · subst hcm; exact absurd hc (by decide)
      · simp [hcm]
    simp only [hplus, hminus, Bool.false_eq_true, if_false]
    simp [digitsStart, alpha_not_digit c hc]

/-- Style name Heading followed by digits parses to their decimal value. -/
theorem getHeadingLevel_digits (s : String) (hne : ¬ s.data = [])
    (h : ∀ c ∈ s.data, isDigitC c = true) :
    DocxToYamlConverter.getHeadingLevel (("Heading ") ++ s)
      = ((natOfDigits s.data : Int)) := by
  unfold DocxToYamlConverter.getHeadingLevel
  have h1 : pySplitGo ((("Heading ") ++ s)).data []
      = ("Heading").data :: pySplitGo s.data [] := rfl
  rw [h1, pySplitGo_no_ws s.data []
    (fun c hc => digit_not_ws c (h c hc)) (by simpa)]
  simp only [List.reverse_nil, List.nil_append]
  have hl : ((("Heading").data) :: [s.data]).getLast? = some s.data := rfl
  rw [hl]
  simp [pyIntL_digits s.data hne h]

/-- Style name Heading followed by letters falls back to level 1. -/
theorem getHeadingLevel_alpha (s : String) (hne : ¬ s.data = [])
    (h : ∀ c ∈ s.data, isAsciiAlphaC c = true) :
    DocxToYamlConverter.getHeadingLevel (("Heading ") ++ s) = 1 := by
  unfold DocxToYamlConverter.getHeadingLevel
  have h1 : pySplitGo ((("Heading ") ++ s)).data []
      = ("Heading").data :: pySplitGo s.data [] := rfl
  rw [h1, pySplitGo_no_ws s.data []
    (fun c hc => alpha_not_ws c (h c hc)) (by simpa)]
  simp only [List.reverse_nil, List.nil_append]
  have hl : ((("Heading").data) :: [s.data]).getLast? = some s.data := rfl
  rw [hl]
  simp [pyIntL_alpha s.data h]

/-- C8: a nonempty paragraph with style name Heading followed by a digit
string k classifies as a heading block at level k (the decimal value); with
an alphabetic (non-numeric) suffix the level falls back to 1, and with no
suffix at all get-heading-level also yields 1.  The fallback is a return
value, never an error. -/
theorem c8_heading_level :
    (∀ (t s : String) (numPr : Bool) (lv : Option Int),
        ¬ pyStripS t = "" → ¬ s.data = [] → (∀ c ∈ s.data, isDigitC c = true) →
        DocxToYamlConverter.convertParagraph ⟨t, ("Heading ") ++ s, numPr, lv⟩
          = some (Element.heading (pyStripS t) ((natOfDigits s.data : Int))))
    ∧ (∀ (t s : String) (numPr : Bool) (lv : Option Int),
        ¬ pyStripS t = "" → ¬ s.data = [] →
        (∀ c ∈ s.data, isAsciiAlphaC c = true) →
        DocxToYamlConverter.convertParagraph ⟨t, ("Heading ") ++ s, numPr, lv⟩
          = some (Element.heading (pyStripS t) 1))
    ∧ DocxToYamlConverter.getHeadingLevel ("Heading") = 1 := by
  refine ⟨fun t s numPr lv ht hs hd => ?_, fun t s numPr lv ht hs ha => ?_, rfl⟩
  · simp only [DocxToYamlConverter.convertParagraph]
    rw [if_neg ht, if_pos (show startsWithL (("Heading").data)
      ((("Heading ") ++ s)).data = true from rfl)]
    rw [getHeadingLevel_digits s hs hd]
  · simp only [DocxToYamlConverter.convertParagraph]
    rw [if_neg ht, if_pos (show startsWithL (("Heading").data)
      ((("Heading ") ++ s)).data = true from rfl)]
    rw [getHeadingLevel_alpha s hs ha]

/-- C8 witness: style name Heading 7 on a nonempty paragraph yields a level 7
heading. -/
theorem c8_witness :
    DocxToYamlConverter.convertParagraph ⟨"Title", "Heading 7", false, none⟩
      = some (Element.heading ("Title") 7) :=
  c8_heading_level.1 ("Title") ("7") false none (by decide) (by decide)
    (by decide)

/-! Claim C1. -/

/-- Written from the spec, section 4.1(b): a marker shaped as a character
class run followed by a dot or closing parenthesis. -/
def specRunThen (p : Char → Bool) (cs : List Char) : Bool :=
  let ds := cs.takeWhile p
  !ds.isEmpty &&
    (((cs.drop ds.length).head? == some '.') ||
      ((cs.drop ds.length).head? == some ')'))

/-- Written from the spec, claim C1 and section 4.1(b): the trimmed text
begins with a bullet glyph, dash, asterisk or plus; a decimal-number marker;
a single-letter marker; or a case-insensitive roman-numeral marker. -/
def specHasListMarker (cs : List Char) : Bool :=
  (match cs with
   | c :: _ => bulletChars.contains c
   | [] => false)
  || specRunThen isDigitC cs
  || (match cs with
      | a :: q :: _ => isAsciiAlphaC a && (q == '.' || q == ')')
      | _ => false)
  || specRunThen (fun c => romanBoth.contains c) cs

/-- Lowercasing leaves a non-uppercase character unchanged. -/
theorem pyLowerC_eq_self (q : Char) (h1 : ¬ q = 'A') (h2 : ¬ q = 'B') (h3 : ¬ q = 'C') (h4 : ¬ q = 'D') (h5 : ¬ q = 'E') (h6 : ¬ q = 'F') (h7 : ¬ q = 'G') (h8 : ¬ q = 'H') (h9 : ¬ q = 'I') (h10 : ¬ q = 'J') (h11 : ¬ q = 'K') (h12 : ¬ q = 'L') (h13 : ¬ q = 'M') (h14 : ¬ q = 'N') (h15 : ¬ q = 'O') (h16 : ¬ q = 'P') (h17 : ¬ q = 'Q') (h18 : ¬ q = 'R') (h19 : ¬ q = 'S') (h20 : ¬ q = 'T') (h21 : ¬ q = 'U') (h22 : ¬ q = 'V') (h23 : ¬ q = 'W') (h24 : ¬ q = 'X') (h25 : ¬ q = 'Y') (h26 : ¬ q = 'Z') : pyLowerC q = q := by
  unfold pyLowerC
  rw [if_neg h1, if_neg h2, if_neg h3, if_neg h4, if_neg h5, if_neg h6, if_neg h7, if_neg h8, if_neg h9, if_neg h10, if_neg h11, if_neg h12, if_neg h13, if_neg h14, if_neg h15, if_neg h16, if_neg h17, if_neg h18, if_neg h19, if_neg h20, if_neg h21, if_neg h22, if_neg h23, if_neg h24, if_neg h25, if_neg h26]

/-- Lowercasing preserves being the dot character. -/
theorem pyLowerC_eq_dot (q : Char) : (pyLowerC q == '.') = (q == '.') := by
  by_cases h1 : q = 'A'
  · subst h1; decide
  by_cases h2 : q = 'B'
  · subst h2; decide
  by_cases h3 : q = 'C'
  · subst h3; decide
  by_cases h4 : q = 'D'
  · subst h4; decide
  by_cases h5 : q = 'E'
  · subst h5; decide
  by_cases h6 : q = 'F'
  · subst h6; decide
  by_cases h7 : q = 'G'
  · subst h7; decide
  by_cases h8 : q = 'H'
  · subst h8; decide
  by_cases h9 : q = 'I'
  · subst h9; decide
  by_cases h10 : q = 'J'
  · subst h10; decide
  by_cases h11 : q = 'K'
  · subst h11; decide
  by_cases h12 : q = 'L'
  · subst h12; decide
  by_cases h13 : q = 'M'
  · subst h13; decide
  by_cases h14 : q = 'N'
  · subst h14; decide
  by_cases h15 : q = 'O'
  · subst h15; decide
  by_cases h16 : q = 'P'
  · subst h16; decide
  by_cases h17 : q = 'Q'
  · subst h17; decide
  by_cases h18 : q = 'R'
  · subst h18; decide
  by_cases h19 : q = 'S'
  · subst h19; decide
  by_cases h20 : q = 'T'
  · subst h20; decide
  by_cases h21 : q = 'U'
  · subst h21; decide
  by_cases h22 : q = 'V'
  · subst h22; decide
  by_cases h23 : q = 'W'
  · subst h23; decide
  by_cases h24 : q = 'X'
  · subst h24; decide
  by_cases h25 : q = 'Y'
  · subst h25; decide
  by_cases h26 : q = 'Z'
  · subst h26; decide
  rw [pyLowerC_eq_self q h1 h2 h3 h4 h5 h6 h7 h8 h9 h10 h11 h12 h13 h14 h15 h16 h17 h18 h19 h20 h21 h22 h23 h24 h25 h26]

/-- Lowercasing preserves being the closing parenthesis. -/
theorem pyLowerC_eq_paren (q : Char) : (pyLowerC q == ')') = (q == ')') := by
  by_cases h1 : q = 'A'
  · subst h1; decide
  by_cases h2 : q = 'B'
  · subst h2; decide
  by_cases h3 : q = 'C'
  · subst h3; decide
  by_cases h4 : q = 'D'
  · subst h4; decide
  by_cases h5 : q = 'E'
  · subst h5; decide
  by_cases h6 : q = 'F'
  · subst h6; decide
  by_cases h7 : q = 'G'
  · subst h7; decide
  by_cases h8 : q = 'H'
  · subst h8; decide
  by_cases h9 : q = 'I'
  · subst h9; decide
  by_cases h10 : q = 'J'
  · subst h10; decide
  by_cases h11 : q = 'K'
  · subst h11; decide
  by_cases h12 : q = 'L'
  · subst h12; decide
  by_cases h13 : q = 'M'
  · subst h13; decide
  by_cases h14 : q = 'N'
  · subst h14; decide
  by_cases h15 : q = 'O'
  · subst h15; decide
  by_cases h16 : q = 'P'
  · subst h16; decide
  by_cases h17 : q = 'Q'
  · subst h17; decide
  by_cases h18 : q = 'R'
  · subst h18; decide
  by_cases h19 : q = 'S'
  · subst h19; decide
  by_cases h20 : q = 'T'
  · subst h20; decide
  by_cases h21 : q = 'U'
  · subst h21; decide
  by_cases h22 : q = 'V'
  · subst h22; decide
  by_cases h23 : q = 'W'
  · subst h23; decide
  by_cases h24 : q = 'X'
  · subst h24; decide
  by_cases h25 : q = 'Y'
  · subst h25; decide
  by_cases h26 : q = 'Z'
  · subst h26; decide
  rw [pyLowerC_eq_self q h1 h2 h3 h4 h5 h6 h7 h8 h9 h10 h11 h12 h13 h14 h15 h16 h17 h18 h19 h20 h21 h22 h23 h24 h25 h26]

/-- A character lowercases into the roman class exactly when it lies in the
both-case roman class. -/
theorem pyLowerC_roman (q : Char) : romanLower.contains (pyLowerC q) = romanBoth.contains q := by
  by_cases h1 : q = 'A'
  · subst h1; decide
  by_cases h2 : q = 'B'
  · subst h2; decide
  by_cases h3 : q = 'C'
  · subst h3; decide
  by_cases h4 : q = 'D'
  · subst h4; decide
  by_cases h5 : q = 'E'
  · subst h5; decide
  by_cases h6 : q = 'F'
  · subst h6; decide
  by_cases h7 : q = 'G'
  · subst h7; decide
  by_cases h8 : q = 'H'
  · subst h8; decide
  by_cases h9 : q = 'I'
  · subst h9; decide
  by_cases h10 : q = 'J'
  · subst h10; decide
  by_cases h11 : q = 'K'
  · subst h11; decide
  by_cases h12 : q = 'L'
  · subst h12; decide
  by_cases h13 : q = 'M'
  · subst h13; decide
  by_cases h14 : q = 'N'
  · subst h14; decide
  by_cases h15 : q = 'O'
  · subst h15; decide
  by_cases h16 : q = 'P'
  · subst h16; decide
  by_cases h17 : q = 'Q'
  · subst h17; decide
  by_cases h18 : q = 'R'
  · subst h18; decide
  by_cases h19 : q = 'S'
  · subst h19; decide
  by_cases h20 : q = 'T'
  · subst h20; decide
  by_cases h21 : q = 'U'
  · subst h21; decide
  by_cases h22 : q = 'V'
  · subst h22; decide
  by_cases h23 : q = 'W'
  · subst h23; decide
  by_cases h24 : q = 'X'
  · subst h24; decide
  by_cases h25 : q = 'Y'
  · subst h25; decide
  by_cases h26 : q = 'Z'
  · subst h26; decide
  rw [pyLowerC_eq_self q h1 h2 h3 h4 h5 h6 h7 h8 h9 h10 h11 h12 h13 h14 h15 h16 h17 h18 h19 h20 h21 h22 h23 h24 h25 h26]
  by_cases hq : q ∈ romanBoth
  · fin_cases hq <;>
      (first
        | decide
        | exact absurd rfl h3
        | exact absurd rfl h4
        | exact absurd rfl h9
        | exact absurd rfl h12
        | exact absurd rfl h13
        | exact absurd rfl h22
        | exact absurd rfl h24)
  · have hb : romanBoth.contains q = false := by
      rw [← Bool.not_eq_true]
      intro hbt
      exact hq (List.elem_iff.mp hbt)
    have hlo : romanLower.contains q = false := by
      rw [← Bool.not_eq_true]
      intro hl
      refine hq ?_
      have hm := List.elem_iff.mp hl
      fin_cases hm <;> decide
    rw [hb, hlo]

/-- Mapping preserves emptiness. -/
theorem isEmpty_map (f : Char → Char) (l : List Char) :
    (l.map f).isEmpty = l.isEmpty := by
  cases l <;> rfl

/-- The case-insensitive roman marker of the spec implies the code's match
of the lowercase roman pattern against the lowercased text. -/
theorem roman_spec_to_code (cs : List Char) (e : Char)
    (htr : ∀ q, (pyLowerC q == e) = (q == e))
    (hne : (!(cs.takeWhile (fun c => romanBoth.contains c)).isEmpty) = true)
    (hhd : ((cs.drop
        (cs.takeWhile (fun c => romanBoth.contains c)).length).head?
      == some e) = true) :
    ListProcessor.matchClassThen (fun c => romanLower.contains c) e
      (cs.map pyLowerC) = true := by
  simp only [ListProcessor.matchClassThen]
  have hpred : ((fun c => romanLower.contains c) ∘ pyLowerC)
      = (fun c => romanBoth.contains c) := funext pyLowerC_roman
  rw [List.takeWhile_map, hpred, Bool.and_eq_true]
  constructor
  · rw [isEmpty_map]
    exact hne
  · rw [List.length_map, ← List.map_drop, List.head?_map]
    cases hh : (cs.drop
        (cs.takeWhile (fun c => romanBoth.contains c)).length).head? with
    | none => rw [hh] at hhd; exact absurd hhd (Bool.false_ne_true)
    | some q =>
      rw [hh] at hhd
      show ((some (pyLowerC q) : Option Char) == some e) = true
      have h1 : ((some (pyLowerC q) : Option Char) == some e)
          = ((pyLowerC q) == e) := rfl
      rw [h1, htr q]
      exact hhd

/-- Every spec-recognized marker is accepted by the ListProcessor text
classifier. -/
theorem spec_marker_isListText (cs : List Char)
    (h : specHasListMarker cs = true) : ListProcessor.isListText cs = true := by
  simp only [specHasListMarker, Bool.or_eq_true] at h
  simp only [ListProcessor.isListText, Bool.or_eq_true]
  rcases h with ((hb | hn) | hl) | hr
  · left; left; left; left; left
    cases cs with
    | nil => exact absurd hb (by decide)
    | cons c rest =>
      rw [List.any_eq_true]
      refine ⟨c, List.elem_iff.mp hb, ?_⟩
      simp [startsWithL]
  · simp only [specRunThen] at hn
    rw [Bool.and_eq_true] at hn
    obtain ⟨hne, hor⟩ := hn
    rw [Bool.or_eq_true] at hor
    rcases hor with hdot | hpar
    · left; left; left; left; right
      simp only [ListProcessor.matchClassThen]
      rw [Bool.and_eq_true]
      exact ⟨hne, hdot⟩
    · left; left; left; right
      simp only [ListProcessor.matchClassThen]
      rw [Bool.and_eq_true]
      exact ⟨hne, hpar⟩
  · left; left; right
    exact hl
  · simp only [specRunThen] at hr
    rw [Bool.and_eq_true] at hr
    obtain ⟨hne, hor⟩ := hr
    rw [Bool.or_eq_true] at hor
    rcases hor with hdot | hpar
    · left; right
      exact roman_spec_to_code cs '.' pyLowerC_eq_dot hne hdot
    · right
      exact roman_spec_to_code cs ')' pyLowerC_eq_paren hne hpar

/-- C1 counterexample: the trimmed text of the white-bullet paragraph begins
with a bullet glyph of the spec's marker set and has no numbering property,
yet the converter's classifier (converter.py, one of the two cited
classifiers) reports is-list false: its tuple only covers the black bullet,
dash, asterisk and the literal digit dot markers 1. through 5. -/
theorem c1_bullet_counterexample :
    specHasListMarker (pyStripL (("◦ item").data)) = true
      ∧ DocxToYamlConverter.isListParagraph ⟨"◦ item", "Normal", false, none⟩
          = false := by
  exact ⟨by decide, by decide⟩

/-- C1 amended: the claimed property holds of the ListProcessor classifier:
a paragraph with an explicit numbering property is classified as a list item
regardless of its text, and any trimmed text beginning with one of the
spec's markers is classified as a list item. -/
theorem c1_listproc_classifier (t sty : String) (numPr : Bool)
    (lv : Option Int) :
    ListProcessor.isListParagraph ⟨t, sty, true, lv⟩ = true
      ∧ (specHasListMarker (pyStripL t.data) = true →
          ListProcessor.isListParagraph ⟨t, sty, numPr, lv⟩ = true) := by
  constructor
  · simp [ListProcessor.isListParagraph]
  · intro h
    have hc := spec_marker_isListText (pyStripL t.data) h
    simp [ListProcessor.isListParagraph, hc]

/-- C1 witness: the white-bullet paragraph is accepted by the ListProcessor
classifier. -/
theorem c1_witness :
    specHasListMarker (pyStripL (("◦ item").data)) = true
      ∧ ListProcessor.isListParagraph ⟨"◦ item", "Normal", false, none⟩
          = true :=
  ⟨by decide,
    (c1_listproc_classifier ("◦ item") ("Normal") false none).2 (by decide)⟩
